import Mathlib

/-!
Verification of the haversine repository (package haversine, file haversine.go).

The Go source computes with float64; here every float64 value is modelled as a
real number, and the float64 error value is modelled as an Option String
(none models a nil error, some msg models a non-nil error built by errors.New).
The functions degToRad, isValidLatitude, isValidLongitude and Haversine are
translated one to one from haversine.go; atan2 models math.Atan2 from the Go
standard library on real arguments, and EFloat (further below) models the
non-finite float64 values for the validation logic.
-/

namespace HaversineGo

open scoped Classical

/-- earthRadius represents the Earth radius in kilometers
(Go: const earthRadius = 6371). -/
def earthRadius : ℝ := 6371

/-- degToRad converts degrees to radians (Go: deg * math.Pi / 180). -/
noncomputable def degToRad (deg : ℝ) : ℝ := deg * Real.pi / 180

/-- isValidLatitude checks if the given latitude is within valid range [-90, 90]
(Go: lat >= -90 && lat <= 90). -/
def isValidLatitude (lat : ℝ) : Prop := lat ≥ -90 ∧ lat ≤ 90

/-- isValidLongitude checks if the given longitude is within valid range
[-180, 180] (Go: lon >= -180 && lon <= 180). -/
def isValidLongitude (lon : ℝ) : Prop := lon ≥ -180 ∧ lon ≤ 180

/-- Model of math.Atan2 from the Go standard library, restricted to real
(finite, unsigned-zero) arguments: the angle of the point (x, y) in (-pi, pi],
with atan2 0 0 = 0. -/
noncomputable def atan2 (y x : ℝ) : ℝ :=
  if 0 < x then Real.arctan (y / x)
  else if x < 0 then
    (if 0 ≤ y then Real.arctan (y / x) + Real.pi else Real.arctan (y / x) - Real.pi)
  else if 0 < y then Real.pi / 2
  else if y < 0 then -(Real.pi / 2)
  else 0

/-- errMsg is the message of the single error value the Go code creates
(Go: errors.New("haversine: invalid latitude or longitude values")). -/
def errMsg : String := "haversine: invalid latitude or longitude values"

/-- haversineA is the intermediate value a of the Go function Haversine:
with dLat := degToRad(lat2 - lat1) and dLon := degToRad(lon2 - lon1),
a = math.Pow(math.Sin(dLat/2), 2)
     + math.Cos(degToRad(lat1)) * math.Cos(degToRad(lat2)) * math.Pow(math.Sin(dLon/2), 2). -/
noncomputable def haversineA (lat1 lon1 lat2 lon2 : ℝ) : ℝ :=
  Real.sin (degToRad (lat2 - lat1) / 2) ^ 2 +
    Real.cos (degToRad lat1) * Real.cos (degToRad lat2) *
      Real.sin (degToRad (lon2 - lon1) / 2) ^ 2

/-- haversineC is the intermediate value c of the Go function Haversine:
c = 2 * math.Atan2(math.Sqrt(a), math.Sqrt(1-a)). -/
noncomputable def haversineC (lat1 lon1 lat2 lon2 : ℝ) : ℝ :=
  2 * atan2 (Real.sqrt (haversineA lat1 lon1 lat2 lon2))
      (Real.sqrt (1 - haversineA lat1 lon1 lat2 lon2))

/-- Haversine calculates the distance in kilometers between two geographic
coordinates using the Haversine formula, translated from haversine.go:
it first validates the four inputs and returns (-1, an error) when any is out
of range, and otherwise returns (earthRadius * c, nil). -/
noncomputable def Haversine (lat1 lon1 lat2 lon2 : ℝ) : ℝ × Option String :=
  if ¬isValidLatitude lat1 ∨ ¬isValidLatitude lat2 ∨
      ¬isValidLongitude lon1 ∨ ¬isValidLongitude lon2 then
    (-1, some errMsg)
  else
    (earthRadius * haversineC lat1 lon1 lat2 lon2, none)

/-- validInput abbreviates the conjunction of the four validation checks of
Haversine. -/
def validInput (lat1 lon1 lat2 lon2 : ℝ) : Prop :=
  isValidLatitude lat1 ∧ isValidLatitude lat2 ∧
    isValidLongitude lon1 ∧ isValidLongitude lon2

/-- On a valid input, Haversine takes the second branch. -/
lemma Haversine_of_valid {lat1 lon1 lat2 lon2 : ℝ}
    (h : validInput lat1 lon1 lat2 lon2) :
    Haversine lat1 lon1 lat2 lon2 =
      (earthRadius * haversineC lat1 lon1 lat2 lon2, none) := by
  unfold Haversine
  rw [if_neg]
  push_neg
  exact ⟨h.1, h.2.1, h.2.2.1, h.2.2.2⟩

/-- On an invalid input, Haversine takes the first branch. -/
lemma Haversine_of_invalid {lat1 lon1 lat2 lon2 : ℝ}
    (h : ¬validInput lat1 lon1 lat2 lon2) :
    Haversine lat1 lon1 lat2 lon2 = (-1, some errMsg) := by
  unfold Haversine
  rw [if_pos]
  unfold validInput at h
  tauto

/-- radians follows the spec wording of the algorithm: degree-to-radian
conversion is radians = degrees * pi / 180. -/
noncomputable def radians (d : ℝ) : ℝ := d * Real.pi / 180

/-- specDistance follows the spec wording of section 4.1 step by step:
dLat = radians(lat2-lat1), dLon = radians(lon2-lon1),
a = sin^2(dLat/2) + cos(radians(lat1)) * cos(radians(lat2)) * sin^2(dLon/2),
c = 2 * atan2(sqrt(a), sqrt(1-a)), result = earthRadiusKm * c with
earthRadiusKm = 6371. It exists to be compared with the definition Haversine
taken from the source. -/
noncomputable def specDistance (lat1 lon1 lat2 lon2 : ℝ) : ℝ :=
  6371 *
    (2 * atan2
      (Real.sqrt (Real.sin (radians (lat2 - lat1) / 2) ^ 2 +
        Real.cos (radians lat1) * Real.cos (radians lat2) *
          Real.sin (radians (lon2 - lon1) / 2) ^ 2))
      (Real.sqrt (1 - (Real.sin (radians (lat2 - lat1) / 2) ^ 2 +
        Real.cos (radians lat1) * Real.cos (radians lat2) *
          Real.sin (radians (lon2 - lon1) / 2) ^ 2))))

/-- C1: on every input with both latitudes in [-90, 90] and both longitudes in
[-180, 180], Haversine returns a nil error and the distance computed exactly by
the algorithm written in the spec (dLat, dLon, a, c, earthRadiusKm * c). -/
theorem haversine_matches_spec (lat1 lon1 lat2 lon2 : ℝ)
    (h : validInput lat1 lon1 lat2 lon2) :
    Haversine lat1 lon1 lat2 lon2 = (specDistance lat1 lon1 lat2 lon2, none) := by
  rw [Haversine_of_valid h]
  rfl

/-- Witness for C1 at the origin input. -/
theorem haversine_matches_spec_witness :
    Haversine 0 0 0 0 = (specDistance 0 0 0 0, none) :=
  haversine_matches_spec 0 0 0 0
    (by norm_num [validInput, isValidLatitude, isValidLongitude])

/-- C2: Haversine returns the sentinel (-1) together with the invalid
coordinate error exactly on the inputs where some coordinate is out of range,
and returns a nil error on every other input. -/
theorem haversine_error_iff (lat1 lon1 lat2 lon2 : ℝ) :
    (Haversine lat1 lon1 lat2 lon2 = (-1, some errMsg) ↔
      ¬validInput lat1 lon1 lat2 lon2) ∧
      ((Haversine lat1 lon1 lat2 lon2).2 = none ↔
        validInput lat1 lon1 lat2 lon2) := by
  by_cases h : validInput lat1 lon1 lat2 lon2
  · rw [Haversine_of_valid h]
    simp [h]
  · rw [Haversine_of_invalid h]
    simp [h]

/-- C3: the validation bounds are inclusive: inputs with latitudes exactly
90 or -90 and longitudes exactly 180 or -180 are accepted (nil error), while a
latitude of 90.0001 or a longitude of 180.0001 is rejected with the invalid
coordinate error. -/
theorem boundary_validity :
    (Haversine 90 180 (-90) (-180)).2 = none ∧
      (Haversine (-90) (-180) 90 180).2 = none ∧
      Haversine 90.0001 0 0 0 = (-1, some errMsg) ∧
      Haversine 0 180.0001 0 0 = (-1, some errMsg) := by
  refine ⟨?_, ?_, ?_, ?_⟩
  · rw [Haversine_of_valid
      (by norm_num [validInput, isValidLatitude, isValidLongitude])]
  · rw [Haversine_of_valid
      (by norm_num [validInput, isValidLatitude, isValidLongitude])]
  · exact Haversine_of_invalid
      (by norm_num [validInput, isValidLatitude, isValidLongitude])
  · exact Haversine_of_invalid
      (by norm_num [validInput, isValidLatitude, isValidLongitude])

/-- C5: Haversine is symmetric in its two coordinate pairs, as distance and as
error, on every input. -/
theorem haversine_symm (lat1 lon1 lat2 lon2 : ℝ) :
    Haversine lat1 lon1 lat2 lon2 = Haversine lat2 lon2 lat1 lon1 := by
  have hA : haversineA lat2 lon2 lat1 lon1 = haversineA lat1 lon1 lat2 lon2 := by
    unfold haversineA degToRad
    have e1 : (lat1 - lat2) * Real.pi / 180 / 2 =
        -((lat2 - lat1) * Real.pi / 180 / 2) := by ring
    have e2 : (lon1 - lon2) * Real.pi / 180 / 2 =
        -((lon2 - lon1) * Real.pi / 180 / 2) := by ring
    rw [e1, e2, Real.sin_neg, Real.sin_neg]
    ring
  have hC : haversineC lat2 lon2 lat1 lon1 = haversineC lat1 lon1 lat2 lon2 := by
    unfold haversineC
    rw [hA]
  by_cases h : validInput lat1 lon1 lat2 lon2
  · have h2 : validInput lat2 lon2 lat1 lon1 := ⟨h.2.1, h.1, h.2.2.2, h.2.2.1⟩
    rw [Haversine_of_valid h, Haversine_of_valid h2, hC]
  · have h2 : ¬validInput lat2 lon2 lat1 lon1 := fun hc =>
      h ⟨hc.2.1, hc.1, hc.2.2.2, hc.2.2.1⟩
    rw [Haversine_of_invalid h, Haversine_of_invalid h2]

/-- C6: on every valid coordinate pair, the distance from the pair to itself is
exactly 0 with a nil error. -/
theorem haversine_identity (lat lon : ℝ) (h : validInput lat lon lat lon) :
    Haversine lat lon lat lon = (0, none) := by
  have hA : haversineA lat lon lat lon = 0 := by
    unfold haversineA degToRad
    simp
  rw [Haversine_of_valid h]
  unfold haversineC
  rw [hA]
  norm_num [atan2]

/-- Witness for C6 at latitude 12, longitude 34. -/
theorem haversine_identity_witness : Haversine 12 34 12 34 = (0, none) :=
  haversine_identity 12 34
    (by norm_num [validInput, isValidLatitude, isValidLongitude])

/-- C8: Haversine is deterministic: two calls on identical arguments return the
identical distance and error pair. (Purity itself is inherent to the model:
the translated function has no state to mutate.) -/
theorem haversine_deterministic (lat1 lon1 lat2 lon2 lat1b lon1b lat2b lon2b : ℝ)
    (h1 : lat1 = lat1b) (h2 : lon1 = lon1b) (h3 : lat2 = lat2b)
    (h4 : lon2 = lon2b) :
    Haversine lat1 lon1 lat2 lon2 = Haversine lat1b lon1b lat2b lon2b := by
  rw [h1, h2, h3, h4]

/-- Witness for C8 at a concrete repeated call. -/
theorem haversine_deterministic_witness :
    Haversine 1 2 3 4 = Haversine 1 2 3 4 :=
  haversine_deterministic 1 2 3 4 1 2 3 4 rfl rfl rfl rfl

/-- EFloat models a Go float64 value as seen by the validation logic: a finite
real number, one of the two infinities, or NaN. -/
inductive EFloat where
  | nan : EFloat
  | posInf : EFloat
  | negInf : EFloat
  | fin : ℝ → EFloat

/-- geConst models the Go comparison v >= c between a float64 value v and a
finite constant c under IEEE-754 semantics: every comparison with NaN is
false, +Inf compares above and -Inf below every finite constant. -/
def EFloat.geConst : EFloat → ℝ → Prop
  | .nan, _ => False
  | .posInf, _ => True
  | .negInf, _ => False
  | .fin x, c => x ≥ c

/-- leConst models the Go comparison v <= c between a float64 value v and a
finite constant c under IEEE-754 semantics. -/
def EFloat.leConst : EFloat → ℝ → Prop
  | .nan, _ => False
  | .posInf, _ => False
  | .negInf, _ => True
  | .fin x, c => x ≤ c

/-- finite holds exactly on the finite EFloat values. -/
def EFloat.finite : EFloat → Prop
  | .fin _ => True
  | _ => False

/-- toReal extracts the real number of a finite EFloat value. -/
def EFloat.toReal : EFloat → ℝ
  | .fin x => x
  | _ => 0

/-- isValidLatitudeF is the latitude check of haversine.go read over float64
values, comparison by comparison (lat >= -90 && lat <= 90). -/
def isValidLatitudeF (lat : EFloat) : Prop :=
  lat.geConst (-90) ∧ lat.leConst 90

/-- isValidLongitudeF is the longitude check of haversine.go read over float64
values, comparison by comparison (lon >= -180 && lon <= 180). -/
def isValidLongitudeF (lon : EFloat) : Prop :=
  lon.geConst (-180) ∧ lon.leConst 180

/-- HaversineF is the Haversine function of haversine.go over EFloat inputs:
the validation runs under IEEE-754 comparison semantics, and only inputs that
pass it (hence finite ones) reach the trigonometric computation, which is the
real-valued translation Haversine. -/
noncomputable def HaversineF (lat1 lon1 lat2 lon2 : EFloat) : EFloat × Option String :=
  if ¬isValidLatitudeF lat1 ∨ ¬isValidLatitudeF lat2 ∨
      ¬isValidLongitudeF lon1 ∨ ¬isValidLongitudeF lon2 then
    (.fin (-1), some errMsg)
  else
    (.fin (Haversine lat1.toReal lon1.toReal lat2.toReal lon2.toReal).1, none)

/-- A non-finite value fails the latitude check. -/
lemma not_isValidLatitudeF_of_not_finite {v : EFloat} (h : ¬v.finite) :
    ¬isValidLatitudeF v := by
  cases v <;> simp [EFloat.finite] at h ⊢ <;>
    simp [isValidLatitudeF, EFloat.geConst, EFloat.leConst]

/-- A non-finite value fails the longitude check. -/
lemma not_isValidLongitudeF_of_not_finite {v : EFloat} (h : ¬v.finite) :
    ¬isValidLongitudeF v := by
  cases v <;> simp [EFloat.finite] at h ⊢ <;>
    simp [isValidLongitudeF, EFloat.geConst, EFloat.leConst]

/-- C9: when any of the four arguments is NaN, positive infinity or negative
infinity, the validation comparisons reject it, so the function returns the
sentinel -1 with the invalid coordinate error and the trigonometric
computation is never reached. -/
theorem haversine_rejects_nonfinite (lat1 lon1 lat2 lon2 : EFloat)
    (h : ¬lat1.finite ∨ ¬lon1.finite ∨ ¬lat2.finite ∨ ¬lon2.finite) :
    HaversineF lat1 lon1 lat2 lon2 = (.fin (-1), some errMsg) := by
  unfold HaversineF
  rw [if_pos]
  rcases h with h | h | h | h
  · exact Or.inl (not_isValidLatitudeF_of_not_finite h)
  · exact Or.inr (Or.inr (Or.inl (not_isValidLongitudeF_of_not_finite h)))
  · exact Or.inr (Or.inl (not_isValidLatitudeF_of_not_finite h))
  · exact Or.inr (Or.inr (Or.inr (not_isValidLongitudeF_of_not_finite h)))

/-- Witness for C9 with a NaN latitude. -/
theorem haversine_rejects_nonfinite_witness :
    HaversineF .nan (.fin 0) (.fin 0) (.fin 0) = (.fin (-1), some errMsg) :=
  haversine_rejects_nonfinite .nan (.fin 0) (.fin 0) (.fin 0)
    (Or.inl (by simp [EFloat.finite]))

/-- Product-to-sum form of the haversine intermediate value: with p and q the
two latitudes in radians and e the longitude difference in radians, the value
a equals (1 - (cos p cos q cos e + sin p sin q)) / 2. -/
lemma hav_core_eq (p q e : ℝ) :
    Real.sin ((q - p) / 2) ^ 2 + Real.cos p * Real.cos q * Real.sin (e / 2) ^ 2 =
      (1 - (Real.cos p * Real.cos q * Real.cos e + Real.sin p * Real.sin q)) / 2 := by
  have h1 := Real.sin_sq_eq_half_sub ((q - p) / 2)
  have h2 := Real.sin_sq_eq_half_sub (e / 2)
  have e1 : 2 * ((q - p) / 2) = q - p := by ring
  have e2 : 2 * (e / 2) = e := by ring
  rw [e1] at h1
  rw [e2] at h2
  rw [h1, h2, Real.cos_sub]
  ring

/-- The quantity cos p cos q cos e + sin p sin q is at most 1 (it is the inner
product of two unit vectors). -/
lemma dot_le_one (p q e : ℝ) :
    Real.cos p * Real.cos q * Real.cos e + Real.sin p * Real.sin q ≤ 1 := by
  have hp := Real.sin_sq_add_cos_sq p
  have hq := Real.sin_sq_add_cos_sq q
  have he1 := Real.neg_one_le_cos e
  have he2 := Real.cos_le_one e
  rcases le_total 0 (Real.cos p * Real.cos q) with h | h
  · nlinarith [sq_nonneg (Real.cos p - Real.cos q), sq_nonneg (Real.sin p - Real.sin q)]
  · nlinarith [sq_nonneg (Real.cos p + Real.cos q), sq_nonneg (Real.sin p - Real.sin q)]

/-- The quantity cos p cos q cos e + sin p sin q is at least -1. -/
lemma neg_one_le_dot (p q e : ℝ) :
    -1 ≤ Real.cos p * Real.cos q * Real.cos e + Real.sin p * Real.sin q := by
  have hp := Real.sin_sq_add_cos_sq p
  have hq := Real.sin_sq_add_cos_sq q
  have he1 := Real.neg_one_le_cos e
  have he2 := Real.cos_le_one e
  rcases le_total 0 (Real.cos p * Real.cos q) with h | h
  · nlinarith [sq_nonneg (Real.cos p - Real.cos q), sq_nonneg (Real.sin p + Real.sin q)]
  · nlinarith [sq_nonneg (Real.cos p + Real.cos q), sq_nonneg (Real.sin p + Real.sin q)]

/-- haversineA in product-to-sum form. -/
lemma haversineA_eq_dot (lat1 lon1 lat2 lon2 : ℝ) :
    haversineA lat1 lon1 lat2 lon2 =
      (1 - (Real.cos (degToRad lat1) * Real.cos (degToRad lat2) *
          Real.cos (degToRad (lon2 - lon1)) +
        Real.sin (degToRad lat1) * Real.sin (degToRad lat2))) / 2 := by
  have harg : degToRad (lat2 - lat1) / 2 = (degToRad lat2 - degToRad lat1) / 2 := by
    unfold degToRad
    ring
  unfold haversineA
  rw [harg]
  exact hav_core_eq (degToRad lat1) (degToRad lat2) (degToRad (lon2 - lon1))

/-- The intermediate value a is nonnegative on every input. -/
lemma haversineA_nonneg (lat1 lon1 lat2 lon2 : ℝ) :
    0 ≤ haversineA lat1 lon1 lat2 lon2 := by
  rw [haversineA_eq_dot]
  have := dot_le_one (degToRad lat1) (degToRad lat2) (degToRad (lon2 - lon1))
  linarith

/-- The intermediate value a is at most 1 on every input. -/
lemma haversineA_le_one (lat1 lon1 lat2 lon2 : ℝ) :
    haversineA lat1 lon1 lat2 lon2 ≤ 1 := by
  rw [haversineA_eq_dot]
  have := neg_one_le_dot (degToRad lat1) (degToRad lat2) (degToRad (lon2 - lon1))
  linarith

/-- For a in [0, 1], the atan2 call of the Go code lands in [0, pi / 2]. -/
lemma atan2_sqrt_bounds {a : ℝ} (h0 : 0 ≤ a) (h1 : a ≤ 1) :
    0 ≤ atan2 (Real.sqrt a) (Real.sqrt (1 - a)) ∧
      atan2 (Real.sqrt a) (Real.sqrt (1 - a)) ≤ Real.pi / 2 := by
  rcases eq_or_lt_of_le h1 with heq | hlt
  · subst heq
    have hz : (1 : ℝ) - 1 = 0 := by norm_num
    rw [hz, Real.sqrt_zero, Real.sqrt_one]
    unfold atan2
    rw [if_neg (lt_irrefl 0), if_neg (lt_irrefl 0), if_pos one_pos]
    exact ⟨by positivity, le_refl _⟩
  · have hx : 0 < Real.sqrt (1 - a) := Real.sqrt_pos.mpr (by linarith)
    unfold atan2
    rw [if_pos hx]
    constructor
    · rw [← Real.arctan_zero]
      exact Real.arctan_strictMono.monotone
        (div_nonneg (Real.sqrt_nonneg a) (Real.sqrt_nonneg (1 - a)))
    · exact (Real.arctan_lt_pi_div_two _).le

/-- C4: on every valid input the returned distance is nonnegative and at most
pi * 6371 kilometers, half the circumference of the modelled Earth. -/
theorem haversine_distance_range (lat1 lon1 lat2 lon2 : ℝ)
    (h : validInput lat1 lon1 lat2 lon2) :
    0 ≤ (Haversine lat1 lon1 lat2 lon2).1 ∧
      (Haversine lat1 lon1 lat2 lon2).1 ≤ Real.pi * 6371 := by
  rw [Haversine_of_valid h]
  have hA0 := haversineA_nonneg lat1 lon1 lat2 lon2
  have hA1 := haversineA_le_one lat1 lon1 lat2 lon2
  obtain ⟨hl, hu⟩ := atan2_sqrt_bounds hA0 hA1
  unfold haversineC earthRadius
  constructor
  · simp only
    nlinarith
  · simp only
    nlinarith

/-- Witness for C4 at the boundary corner input. -/
theorem haversine_distance_range_witness :
    0 ≤ (Haversine 90 180 (-90) (-180)).1 ∧
      (Haversine 90 180 (-90) (-180)).1 ≤ Real.pi * 6371 :=
  haversine_distance_range 90 180 (-90) (-180)
    (by norm_num [validInput, isValidLatitude, isValidLongitude])

/-- C10: on every valid input the intermediate value a lies in [0, 1], so both
square roots receive nonnegative arguments, and the returned distance is the
well-defined real number earthRadius * c. -/
theorem haversine_a_unit_interval (lat1 lon1 lat2 lon2 : ℝ)
    (h : validInput lat1 lon1 lat2 lon2) :
    0 ≤ haversineA lat1 lon1 lat2 lon2 ∧
      haversineA lat1 lon1 lat2 lon2 ≤ 1 ∧
      0 ≤ 1 - haversineA lat1 lon1 lat2 lon2 ∧
      (Haversine lat1 lon1 lat2 lon2).1 =
        earthRadius * haversineC lat1 lon1 lat2 lon2 := by
  have hA0 := haversineA_nonneg lat1 lon1 lat2 lon2
  have hA1 := haversineA_le_one lat1 lon1 lat2 lon2
  refine ⟨hA0, hA1, by linarith, ?_⟩
  rw [Haversine_of_valid h]

/-- Witness for C10 at a concrete valid input. -/
theorem haversine_a_unit_interval_witness :
    0 ≤ haversineA 10 20 30 40 ∧
      haversineA 10 20 30 40 ≤ 1 ∧
      0 ≤ 1 - haversineA 10 20 30 40 ∧
      (Haversine 10 20 30 40).1 = earthRadius * haversineC 10 20 30 40 :=
  haversine_a_unit_interval 10 20 30 40
    (by norm_num [validInput, isValidLatitude, isValidLongitude])

/-- Power of the imaginary unit used in the degree-9 Taylor computations. -/
lemma complexI_pow_four : (Complex.I : ℂ) ^ 4 = 1 := by
  rw [(by norm_num : (4 : ℕ) = 2 * 2), pow_mul, Complex.I_sq]
  norm_num

/-- Power of the imaginary unit used in the degree-9 Taylor computations. -/
lemma complexI_pow_six : (Complex.I : ℂ) ^ 6 = -1 := by
  rw [(by norm_num : (6 : ℕ) = 2 * 3), pow_mul, Complex.I_sq]
  norm_num

/-- Power of the imaginary unit used in the degree-9 Taylor computations. -/
lemma complexI_pow_eight : (Complex.I : ℂ) ^ 8 = 1 := by
  rw [(by norm_num : (8 : ℕ) = 2 * 4), pow_mul, Complex.I_sq]
  norm_num

/-- Power of the imaginary unit used in the degree-9 Taylor computations. -/
lemma complexI_pow_ten : (Complex.I : ℂ) ^ 10 = -1 := by
  rw [(by norm_num : (10 : ℕ) = 2 * 5), pow_mul, Complex.I_sq]
  norm_num

/-- The first ten exponential series terms of i x and of -i x sum to twice the
degree-8 cosine Taylor polynomial. -/
lemma cos_sum_pair (x : ℝ) :
    (∑ m ∈ Finset.range 10, ((x : ℂ) * Complex.I) ^ m / m.factorial) +
      (∑ m ∈ Finset.range 10, (-(x : ℂ) * Complex.I) ^ m / m.factorial) =
      2 * (((1 - x ^ 2 / 2 + x ^ 4 / 24 - x ^ 6 / 720 + x ^ 8 / 40320 : ℝ)) : ℂ) := by
  simp only [Finset.sum_range_succ, Finset.sum_range_zero, Nat.factorial]
  push_cast
  ring_nf
  rw [Complex.I_sq, complexI_pow_four, complexI_pow_six, complexI_pow_eight]
  ring_nf

/-- The difference of the first ten exponential series terms of -i x and of
i x, times i, is twice the degree-9 sine Taylor polynomial. -/
lemma sin_sum_pair (x : ℝ) :
    ((∑ m ∈ Finset.range 10, (-(x : ℂ) * Complex.I) ^ m / m.factorial) -
      (∑ m ∈ Finset.range 10, ((x : ℂ) * Complex.I) ^ m / m.factorial)) * Complex.I =
      2 * (((x - x ^ 3 / 6 + x ^ 5 / 120 - x ^ 7 / 5040 + x ^ 9 / 362880 : ℝ)) : ℂ) := by
  simp only [Finset.sum_range_succ, Finset.sum_range_zero, Nat.factorial]
  push_cast
  ring_nf
  rw [Complex.I_sq, complexI_pow_ten, complexI_pow_four, complexI_pow_six,
    complexI_pow_eight]
  ring_nf

/-- Absolute value of a real multiple of the imaginary unit. -/
lemma abs_mul_I (x : ℝ) : Complex.abs ((x : ℂ) * Complex.I) = |x| := by
  simp

/-- Absolute value of a negated real multiple of the imaginary unit. -/
lemma abs_neg_mul_I (x : ℝ) : Complex.abs (-(x : ℂ) * Complex.I) = |x| := by
  simp

/-- Degree-8 Taylor bound for the cosine on [-1, 1], obtained from the
exponential series remainder estimate at order 10. -/
lemma cos_taylor_bound {x : ℝ} (hx : |x| ≤ 1) :
    |Real.cos x - (1 - x ^ 2 / 2 + x ^ 4 / 24 - x ^ 6 / 720 + x ^ 8 / 40320)| ≤
      |x| ^ 10 * (11 / 36288000) := by
  have hx1 : Complex.abs ((x : ℂ) * Complex.I) ≤ 1 := by
    rw [abs_mul_I]
    exact hx
  have hx2 : Complex.abs (-(x : ℂ) * Complex.I) ≤ 1 := by
    rw [abs_neg_mul_I]
    exact hx
  have hb1 := Complex.exp_bound hx1 (show 0 < 10 by norm_num)
  have hb2 := Complex.exp_bound hx2 (show 0 < 10 by norm_num)
  have key : Complex.cos x -
      ((1 - x ^ 2 / 2 + x ^ 4 / 24 - x ^ 6 / 720 + x ^ 8 / 40320 : ℝ) : ℂ) =
      ((Complex.exp ((x : ℂ) * Complex.I) -
          ∑ m ∈ Finset.range 10, ((x : ℂ) * Complex.I) ^ m / m.factorial) +
        (Complex.exp (-(x : ℂ) * Complex.I) -
          ∑ m ∈ Finset.range 10, (-(x : ℂ) * Complex.I) ^ m / m.factorial)) / 2 := by
    have hs := cos_sum_pair x
    rw [Complex.cos]
    push_cast at hs ⊢
    linear_combination hs / 2
  have habs : |Real.cos x - (1 - x ^ 2 / 2 + x ^ 4 / 24 - x ^ 6 / 720 + x ^ 8 / 40320)| =
      Complex.abs (Complex.cos x -
        ((1 - x ^ 2 / 2 + x ^ 4 / 24 - x ^ 6 / 720 + x ^ 8 / 40320 : ℝ) : ℂ)) := by
    rw [← Complex.ofReal_cos, ← Complex.ofReal_sub, Complex.abs_ofReal]
  rw [habs, key, map_div₀]
  have tri := Complex.abs.add_le
    (Complex.exp ((x : ℂ) * Complex.I) -
      ∑ m ∈ Finset.range 10, ((x : ℂ) * Complex.I) ^ m / m.factorial)
    (Complex.exp (-(x : ℂ) * Complex.I) -
      ∑ m ∈ Finset.range 10, (-(x : ℂ) * Complex.I) ^ m / m.factorial)
  rw [abs_mul_I] at hb1
  rw [abs_neg_mul_I] at hb2
  norm_num [Nat.factorial] at hb1 hb2
  have h2 : Complex.abs (2 : ℂ) = 2 := by norm_num
  rw [h2]
  simp only [neg_mul] at tri ⊢
  linarith

/-- Degree-9 Taylor bound for the sine on [-1, 1], obtained from the
exponential series remainder estimate at order 10. -/
lemma sin_taylor_bound {x : ℝ} (hx : |x| ≤ 1) :
    |Real.sin x - (x - x ^ 3 / 6 + x ^ 5 / 120 - x ^ 7 / 5040 + x ^ 9 / 362880)| ≤
      |x| ^ 10 * (11 / 36288000) := by
  have hx1 : Complex.abs ((x : ℂ) * Complex.I) ≤ 1 := by
    rw [abs_mul_I]
    exact hx
  have hx2 : Complex.abs (-(x : ℂ) * Complex.I) ≤ 1 := by
    rw [abs_neg_mul_I]
    exact hx
  have hb1 := Complex.exp_bound hx1 (show 0 < 10 by norm_num)
  have hb2 := Complex.exp_bound hx2 (show 0 < 10 by norm_num)
  have key : Complex.sin x -
      ((x - x ^ 3 / 6 + x ^ 5 / 120 - x ^ 7 / 5040 + x ^ 9 / 362880 : ℝ) : ℂ) =
      ((Complex.exp (-(x : ℂ) * Complex.I) -
          ∑ m ∈ Finset.range 10, (-(x : ℂ) * Complex.I) ^ m / m.factorial) -
        (Complex.exp ((x : ℂ) * Complex.I) -
          ∑ m ∈ Finset.range 10, ((x : ℂ) * Complex.I) ^ m / m.factorial)) *
        Complex.I / 2 := by
    have hs := sin_sum_pair x
    rw [Complex.sin]
    push_cast at hs ⊢
    linear_combination hs / 2
  have habs : |Real.sin x - (x - x ^ 3 / 6 + x ^ 5 / 120 - x ^ 7 / 5040 + x ^ 9 / 362880)| =
      Complex.abs (Complex.sin x -
        ((x - x ^ 3 / 6 + x ^ 5 / 120 - x ^ 7 / 5040 + x ^ 9 / 362880 : ℝ) : ℂ)) := by
    rw [← Complex.ofReal_sin, ← Complex.ofReal_sub, Complex.abs_ofReal]
  rw [habs, key, map_div₀, map_mul, Complex.abs_I, mul_one]
  have tri : Complex.abs
      ((Complex.exp (-(x : ℂ) * Complex.I) -
          ∑ m ∈ Finset.range 10, (-(x : ℂ) * Complex.I) ^ m / m.factorial) -
        (Complex.exp ((x : ℂ) * Complex.I) -
          ∑ m ∈ Finset.range 10, ((x : ℂ) * Complex.I) ^ m / m.factorial)) ≤
      Complex.abs (Complex.exp (-(x : ℂ) * Complex.I) -
          ∑ m ∈ Finset.range 10, (-(x : ℂ) * Complex.I) ^ m / m.factorial) +
        Complex.abs (Complex.exp ((x : ℂ) * Complex.I) -
          ∑ m ∈ Finset.range 10, ((x : ℂ) * Complex.I) ^ m / m.factorial) := by
    have hg := Complex.abs.sub_le
      (Complex.exp (-(x : ℂ) * Complex.I) -
        ∑ m ∈ Finset.range 10, (-(x : ℂ) * Complex.I) ^ m / m.factorial)
      0
      (Complex.exp ((x : ℂ) * Complex.I) -
        ∑ m ∈ Finset.range 10, ((x : ℂ) * Complex.I) ^ m / m.factorial)
    rw [sub_zero, zero_sub, Complex.abs.map_neg] at hg
    exact hg
  rw [abs_mul_I] at hb1
  rw [abs_neg_mul_I] at hb2
  norm_num [Nat.factorial] at hb1 hb2
  have h2 : Complex.abs (2 : ℂ) = 2 := by norm_num
  rw [h2]
  simp only [neg_mul] at tri ⊢
  linarith

/-- Rational lower bound for the sine at a rational point of [0, 1]. -/
lemma sin_lower {x L : ℝ} (h0 : 0 ≤ x) (h1 : x ≤ 1)
    (hL : L ≤ x - x ^ 3 / 6 + x ^ 5 / 120 - x ^ 7 / 5040 + x ^ 9 / 362880 -
      x ^ 10 * (11 / 36288000)) :
    L ≤ Real.sin x := by
  have hb := sin_taylor_bound (show |x| ≤ 1 by rwa [abs_of_nonneg h0])
  rw [abs_of_nonneg h0] at hb
  have h2 := abs_le.mp hb
  linarith [h2.1, h2.2]

/-- Rational upper bound for the sine at a rational point of [0, 1]. -/
lemma sin_upper {x U : ℝ} (h0 : 0 ≤ x) (h1 : x ≤ 1)
    (hU : x - x ^ 3 / 6 + x ^ 5 / 120 - x ^ 7 / 5040 + x ^ 9 / 362880 +
      x ^ 10 * (11 / 36288000) ≤ U) :
    Real.sin x ≤ U := by
  have hb := sin_taylor_bound (show |x| ≤ 1 by rwa [abs_of_nonneg h0])
  rw [abs_of_nonneg h0] at hb
  have h2 := abs_le.mp hb
  linarith [h2.1, h2.2]

/-- Rational lower bound for the cosine at a rational point of [0, 1]. -/
lemma cos_lower {x L : ℝ} (h0 : 0 ≤ x) (h1 : x ≤ 1)
    (hL : L ≤ 1 - x ^ 2 / 2 + x ^ 4 / 24 - x ^ 6 / 720 + x ^ 8 / 40320 -
      x ^ 10 * (11 / 36288000)) :
    L ≤ Real.cos x := by
  have hb := cos_taylor_bound (show |x| ≤ 1 by rwa [abs_of_nonneg h0])
  rw [abs_of_nonneg h0] at hb
  have h2 := abs_le.mp hb
  linarith [h2.1, h2.2]

/-- Rational upper bound for the cosine at a rational point of [0, 1]. -/
lemma cos_upper {x U : ℝ} (h0 : 0 ≤ x) (h1 : x ≤ 1)
    (hU : 1 - x ^ 2 / 2 + x ^ 4 / 24 - x ^ 6 / 720 + x ^ 8 / 40320 +
      x ^ 10 * (11 / 36288000) ≤ U) :
    Real.cos x ≤ U := by
  have hb := cos_taylor_bound (show |x| ≤ 1 by rwa [abs_of_nonneg h0])
  rw [abs_of_nonneg h0] at hb
  have h2 := abs_le.mp hb
  linarith [h2.1, h2.2]

/-- Transfer of sine bounds from the rational endpoints of an interval inside
[0, 1], by monotonicity of the sine there. -/
lemma sin_bounds_trans {t lo hi L U : ℝ} (hlo0 : 0 ≤ lo) (hhi1 : hi ≤ 1)
    (h1 : lo ≤ t) (h2 : t ≤ hi) (hL : L ≤ Real.sin lo) (hU : Real.sin hi ≤ U) :
    L ≤ Real.sin t ∧ Real.sin t ≤ U := by
  have hpi : (3.141592 : ℝ) < Real.pi := Real.pi_gt_d6
  constructor
  · exact hL.trans (Real.sin_le_sin_of_le_of_le_pi_div_two (by linarith) (by linarith) h1)
  · exact (Real.sin_le_sin_of_le_of_le_pi_div_two (by linarith) (by linarith) h2).trans hU

/-- Transfer of cosine bounds from the rational endpoints of an interval inside
[0, 1], by antitonicity of the cosine there. -/
lemma cos_bounds_trans {t lo hi L U : ℝ} (hlo0 : 0 ≤ lo) (hhi1 : hi ≤ 1)
    (h1 : lo ≤ t) (h2 : t ≤ hi) (hL : L ≤ Real.cos hi) (hU : Real.cos lo ≤ U) :
    L ≤ Real.cos t ∧ Real.cos t ≤ U := by
  have hpi : (3.141592 : ℝ) < Real.pi := Real.pi_gt_d6
  constructor
  · exact hL.trans (Real.cos_le_cos_of_nonneg_of_le_pi (by linarith) (by linarith) h2)
  · exact (Real.cos_le_cos_of_nonneg_of_le_pi (by linarith) (by linarith) h1).trans hU

/-- Lower bound for the tangent at an angle with bounded sine and cosine. -/
lemma tan_lower {θ SL CU RU : ℝ} (hSL : SL ≤ Real.sin θ) (hSL0 : 0 ≤ SL)
    (hCU : Real.cos θ ≤ CU) (hcpos : 0 < Real.cos θ) (hr : RU ≤ SL / CU) :
    RU ≤ Real.tan θ := by
  rw [Real.tan_eq_sin_div_cos]
  exact hr.trans (div_le_div₀ (le_trans hSL0 hSL) hSL hcpos hCU)

/-- Upper bound for the tangent at an angle with bounded sine and cosine. -/
lemma tan_upper {θ SU CL RL : ℝ} (hSU : Real.sin θ ≤ SU) (hSU0 : 0 ≤ SU)
    (hCL : CL ≤ Real.cos θ) (hCL0 : 0 < CL) (hr : SU / CL ≤ RL) :
    Real.tan θ ≤ RL := by
  rw [Real.tan_eq_sin_div_cos]
  exact (div_le_div₀ hSU0 hSU hCL0 hCL).trans hr

/-- Interval bounds for the atan2 call of the Go code when a is strictly
between 0 and 1, derived from rational bounds on the two square roots and on
the tangent at the two candidate angles. -/
lemma atan2_sqrt_bounds_of_tan {a NL NU DL DU RL RU tl tu : ℝ}
    (h1 : a < 1)
    (hNU0 : 0 ≤ NU) (hDL0 : 0 < DL) (hDU0 : 0 < DU)
    (hNL : NL ^ 2 ≤ a) (hNU : a ≤ NU ^ 2) (hDL : DL ^ 2 ≤ 1 - a)
    (hDU : 1 - a ≤ DU ^ 2)
    (hRL : RL ≤ NL / DU) (hRU : NU / DL ≤ RU)
    (htl : Real.tan tl ≤ RL) (htu : RU ≤ Real.tan tu)
    (htl1 : -(Real.pi / 2) < tl) (htl2 : tl < Real.pi / 2)
    (htu1 : -(Real.pi / 2) < tu) (htu2 : tu < Real.pi / 2) :
    tl ≤ atan2 (Real.sqrt a) (Real.sqrt (1 - a)) ∧
      atan2 (Real.sqrt a) (Real.sqrt (1 - a)) ≤ tu := by
  have hx : 0 < Real.sqrt (1 - a) := Real.sqrt_pos.mpr (by linarith)
  unfold atan2
  rw [if_pos hx]
  have h1a : NL ≤ Real.sqrt a := Real.le_sqrt_of_sq_le hNL
  have h2a : Real.sqrt a ≤ NU := by
    calc Real.sqrt a ≤ Real.sqrt (NU ^ 2) := Real.sqrt_le_sqrt hNU
      _ = NU := Real.sqrt_sq hNU0
  have h3a : DL ≤ Real.sqrt (1 - a) := Real.le_sqrt_of_sq_le hDL
  have h4a : Real.sqrt (1 - a) ≤ DU := by
    calc Real.sqrt (1 - a) ≤ Real.sqrt (DU ^ 2) := Real.sqrt_le_sqrt hDU
      _ = DU := Real.sqrt_sq hDU0.le
  have hrl : RL ≤ Real.sqrt a / Real.sqrt (1 - a) :=
    hRL.trans (div_le_div₀ (Real.sqrt_nonneg a) h1a hx h4a)
  have hru : Real.sqrt a / Real.sqrt (1 - a) ≤ RU :=
    (div_le_div₀ hNU0 h2a hDL0 h3a).trans hRU
  constructor
  · have h := Real.arctan_strictMono.monotone (htl.trans hrl)
    rwa [Real.arctan_tan htl1 htl2] at h
  · have h := Real.arctan_strictMono.monotone (hru.trans htu)
    rwa [Real.arctan_tan htu1 htu2] at h

/-- Certified interval for the intermediate value a on the New York City to
Los Angeles input. -/
lemma nycA_bounds :
    0.09240098 ≤ haversineA 40.7128 (-74.0060) 34.0549 (-118.2426) ∧
      haversineA 40.7128 (-74.0060) 34.0549 (-118.2426) ≤ 0.09240129 := by
  have hpil : (3.141592 : ℝ) ≤ Real.pi := Real.pi_gt_d6.le
  have hpiu : Real.pi ≤ 3.141593 := Real.pi_lt_d6.le
  have hs1 : (0.05806842 : ℝ) ≤ Real.sin (6.6579 * Real.pi / 360) ∧
      Real.sin (6.6579 * Real.pi / 360) ≤ 0.05806849 := by
    have h1 : (6.6579 * 3.141592 / 360 : ℝ) ≤ 6.6579 * Real.pi / 360 := by gcongr
    have h2 : (6.6579 * Real.pi / 360 : ℝ) ≤ 6.6579 * 3.141593 / 360 := by gcongr
    have hL : (0.05806842 : ℝ) ≤ Real.sin (6.6579 * 3.141592 / 360) :=
      sin_lower (by norm_num) (by norm_num) (by norm_num)
    have hU : Real.sin (6.6579 * 3.141593 / 360) ≤ 0.05806849 :=
      sin_upper (by norm_num) (by norm_num) (by norm_num)
    exact sin_bounds_trans (by norm_num) (by norm_num) h1 h2 hL hU
  have hs2 : (0.37651995 : ℝ) ≤ Real.sin (44.2366 * Real.pi / 360) ∧
      Real.sin (44.2366 * Real.pi / 360) ≤ 0.37652040 := by
    have h1 : (44.2366 * 3.141592 / 360 : ℝ) ≤ 44.2366 * Real.pi / 360 := by gcongr
    have h2 : (44.2366 * Real.pi / 360 : ℝ) ≤ 44.2366 * 3.141593 / 360 := by gcongr
    have hL : (0.37651995 : ℝ) ≤ Real.sin (44.2366 * 3.141592 / 360) :=
      sin_lower (by norm_num) (by norm_num) (by norm_num)
    have hU : Real.sin (44.2366 * 3.141593 / 360) ≤ 0.37652040 :=
      sin_upper (by norm_num) (by norm_num) (by norm_num)
    exact sin_bounds_trans (by norm_num) (by norm_num) h1 h2 hL hU
  have hc1 : (0.75798845 : ℝ) ≤ Real.cos (40.7128 * Real.pi / 180) ∧
      Real.cos (40.7128 * Real.pi / 180) ≤ 0.75798883 := by
    have h1 : (40.7128 * 3.141592 / 180 : ℝ) ≤ 40.7128 * Real.pi / 180 := by gcongr
    have h2 : (40.7128 * Real.pi / 180 : ℝ) ≤ 40.7128 * 3.141593 / 180 := by gcongr
    have hL : (0.75798845 : ℝ) ≤ Real.cos (40.7128 * 3.141593 / 180) :=
      cos_lower (by norm_num) (by norm_num) (by norm_num)
    have hU : Real.cos (40.7128 * 3.141592 / 180) ≤ 0.75798883 :=
      cos_upper (by norm_num) (by norm_num) (by norm_num)
    exact cos_bounds_trans (by norm_num) (by norm_num) h1 h2 hL hU
  have hc2 : (0.82850123 : ℝ) ≤ Real.cos (34.0549 * Real.pi / 180) ∧
      Real.cos (34.0549 * Real.pi / 180) ≤ 0.82850154 := by
    have h1 : (34.0549 * 3.141592 / 180 : ℝ) ≤ 34.0549 * Real.pi / 180 := by gcongr
    have h2 : (34.0549 * Real.pi / 180 : ℝ) ≤ 34.0549 * 3.141593 / 180 := by gcongr
    have hL : (0.82850123 : ℝ) ≤ Real.cos (34.0549 * 3.141593 / 180) :=
      cos_lower (by norm_num) (by norm_num) (by norm_num)
    have hU : Real.cos (34.0549 * 3.141592 / 180) ≤ 0.82850154 :=
      cos_upper (by norm_num) (by norm_num) (by norm_num)
    exact cos_bounds_trans (by norm_num) (by norm_num) h1 h2 hL hU
  obtain ⟨hs1l, hs1u⟩ := hs1
  obtain ⟨hs2l, hs2u⟩ := hs2
  obtain ⟨hc1l, hc1u⟩ := hc1
  obtain ⟨hc2l, hc2u⟩ := hc2
  unfold haversineA degToRad
  have e1 : ((34.0549 : ℝ) - 40.7128) * Real.pi / 180 / 2 =
      -(6.6579 * Real.pi / 360) := by
    rw [show ((34.0549 : ℝ) - 40.7128) = -6.6579 by norm_num]
    ring
  have e2 : ((-118.2426 : ℝ) - -74.0060) * Real.pi / 180 / 2 =
      -(44.2366 * Real.pi / 360) := by
    rw [show ((-118.2426 : ℝ) - -74.0060) = -44.2366 by norm_num]
    ring
  rw [e1, e2, Real.sin_neg, Real.sin_neg, neg_sq, neg_sq]
  have hsq1l : (0.05806842 : ℝ) ^ 2 ≤ Real.sin (6.6579 * Real.pi / 360) ^ 2 :=
    pow_le_pow_left₀ (by norm_num) hs1l 2
  have hsq1u : Real.sin (6.6579 * Real.pi / 360) ^ 2 ≤ (0.05806849 : ℝ) ^ 2 :=
    pow_le_pow_left₀ (by linarith) hs1u 2
  have hsq2l : (0.37651995 : ℝ) ^ 2 ≤ Real.sin (44.2366 * Real.pi / 360) ^ 2 :=
    pow_le_pow_left₀ (by norm_num) hs2l 2
  have hsq2u : Real.sin (44.2366 * Real.pi / 360) ^ 2 ≤ (0.37652040 : ℝ) ^ 2 :=
    pow_le_pow_left₀ (by linarith) hs2u 2
  have hccl : (0.75798845 * 0.82850123 : ℝ) ≤
      Real.cos (40.7128 * Real.pi / 180) * Real.cos (34.0549 * Real.pi / 180) :=
    mul_le_mul hc1l hc2l (by norm_num) (by linarith)
  have hccu : Real.cos (40.7128 * Real.pi / 180) * Real.cos (34.0549 * Real.pi / 180) ≤
      (0.75798883 * 0.82850154 : ℝ) :=
    mul_le_mul hc1u hc2u (by linarith) (by norm_num)
  have htriL : ((0.75798845 * 0.82850123) * 0.37651995 ^ 2 : ℝ) ≤
      Real.cos (40.7128 * Real.pi / 180) * Real.cos (34.0549 * Real.pi / 180) *
        Real.sin (44.2366 * Real.pi / 360) ^ 2 :=
    mul_le_mul hccl hsq2l (by norm_num)
      (le_trans (by norm_num) hccl)
  have htriU : Real.cos (40.7128 * Real.pi / 180) * Real.cos (34.0549 * Real.pi / 180) *
      Real.sin (44.2366 * Real.pi / 360) ^ 2 ≤
      ((0.75798883 * 0.82850154) * 0.37652040 ^ 2 : ℝ) :=
    mul_le_mul hccu hsq2u (sq_nonneg _) (by norm_num)
  constructor
  · have hnum : (0.09240098 : ℝ) ≤
        0.05806842 ^ 2 + (0.75798845 * 0.82850123) * 0.37651995 ^ 2 := by norm_num
    linarith
  · have hnum : (0.05806849 ^ 2 + (0.75798883 * 0.82850154) * 0.37652040 ^ 2 : ℝ) ≤
        0.09240129 := by norm_num
    linarith

/-- Certified interval for the intermediate value c on the New York City to
Los Angeles input. -/
lemma nycC_bounds :
    2 * 0.3088609 ≤ haversineC 40.7128 (-74.0060) 34.0549 (-118.2426) ∧
      haversineC 40.7128 (-74.0060) 34.0549 (-118.2426) ≤ 2 * 0.3088652 := by
  obtain ⟨hAL, hAU⟩ := nycA_bounds
  have hpil : (3.141592 : ℝ) ≤ Real.pi := Real.pi_gt_d6.le
  have htl : Real.tan 0.3088609 ≤ 0.31907360 := by
    have hS : Real.sin 0.3088609 ≤ 0.30397364 :=
      sin_upper (by norm_num) (by norm_num) (by norm_num)
    have hC : (0.95267931 : ℝ) ≤ Real.cos 0.3088609 :=
      cos_lower (by norm_num) (by norm_num) (by norm_num)
    exact tan_upper hS (by norm_num) hC (by norm_num) (by norm_num)
  have htu : (0.31907480 : ℝ) ≤ Real.tan 0.3088652 := by
    have hS : (0.30397767 : ℝ) ≤ Real.sin 0.3088652 :=
      sin_lower (by norm_num) (by norm_num) (by norm_num)
    have hC : Real.cos 0.3088652 ≤ 0.95267920 :=
      cos_upper (by norm_num) (by norm_num) (by norm_num)
    have hC95 : (0.95 : ℝ) ≤ Real.cos 0.3088652 :=
      cos_lower (by norm_num) (by norm_num) (by norm_num)
    exact tan_lower hS (by norm_num) hC (by linarith) (by norm_num)
  have h1 : haversineA 40.7128 (-74.0060) 34.0549 (-118.2426) < 1 := by linarith
  have hNL : (0.30397520 : ℝ) ^ 2 ≤
      haversineA 40.7128 (-74.0060) 34.0549 (-118.2426) := by
    have h : (0.30397520 : ℝ) ^ 2 ≤ 0.09240098 := by norm_num
    linarith
  have hNU : haversineA 40.7128 (-74.0060) 34.0549 (-118.2426) ≤
      (0.30397588 : ℝ) ^ 2 := by
    have h : (0.09240129 : ℝ) ≤ 0.30397588 ^ 2 := by norm_num
    linarith
  have hDL : (0.95267970 : ℝ) ^ 2 ≤
      1 - haversineA 40.7128 (-74.0060) 34.0549 (-118.2426) := by
    have h : (0.95267970 : ℝ) ^ 2 ≤ 1 - 0.09240129 := by norm_num
    linarith
  have hDU : 1 - haversineA 40.7128 (-74.0060) 34.0549 (-118.2426) ≤
      (0.95268028 : ℝ) ^ 2 := by
    have h : (1 - 0.09240098 : ℝ) ≤ 0.95268028 ^ 2 := by norm_num
    linarith
  have hb := atan2_sqrt_bounds_of_tan h1 (by norm_num) (by norm_num) (by norm_num)
    hNL hNU hDL hDU (by norm_num) (by norm_num) htl htu
    (by linarith) (by linarith) (by linarith) (by linarith)
  unfold haversineC
  constructor
  · linarith [hb.1]
  · linarith [hb.2]

/-- C7: on the New York City to Los Angeles input, Haversine returns a nil
error and a distance within 1 kilometer of 3935.75 kilometers. -/
theorem nyc_la_distance :
    (Haversine 40.7128 (-74.0060) 34.0549 (-118.2426)).2 = none ∧
      |(Haversine 40.7128 (-74.0060) 34.0549 (-118.2426)).1 - 3935.75| ≤ 1 := by
  have hvalid : validInput 40.7128 (-74.0060) 34.0549 (-118.2426) := by
    norm_num [validInput, isValidLatitude, isValidLongitude]
  obtain ⟨hl, hu⟩ := nycC_bounds
  constructor
  · rw [Haversine_of_valid hvalid]
  · have h1 : (Haversine 40.7128 (-74.0060) 34.0549 (-118.2426)).1 =
        earthRadius * haversineC 40.7128 (-74.0060) 34.0549 (-118.2426) := by
      rw [Haversine_of_valid hvalid]
    rw [h1, abs_le]
    unfold earthRadius
    constructor
    · linarith
    · linarith

end HaversineGo
